import Mathlib

/-!
Shallow embedding of `src/http-server.c`, a minimal HTTP/1.x server that
serves static files from a web root and proxies `/mdb-lookup` queries to a
persistent line-oriented backend connection.

Modelling conventions:
* a client input stream is the list of lines that successive `fgets` calls
  would return (each line normally ends in a line terminator); an exhausted
  list models `fgets` returning `NULL` (stream end);
* the backend reply stream is likewise a list of lines; an exhausted list
  models `fgets` returning `NULL` (connection closed / read error);
* `transmit`/`send` results are given by oracles `clientOk, backendOk :
  Nat → Bool` indexed by call site order; a failed transmit contributes no
  bytes and triggers the same early exit (`goto cleanup`) as in the C code;
* the file system is a partial map from path strings to entries (directory
  or file contents as a byte list), standing for `stat` + `fopen`;
* written bytes are recorded as the list of successfully transmitted chunks.
-/

/-- The result of a `send`-style call at a given call index: the oracle that
always reports success, modelling a healthy connection. -/
def allT : Nat → Bool := fun _ => true

/-- `BUFFER_SIZE` from the C source: size of the file-transfer chunk. -/
def BUFFER_SIZE : Nat := 4096

/-- The status table `HttpStatusCodes` from the C source, in order; the
`{0, NULL}` sentinel is modelled by the end of the list. -/
def HttpStatusCodes : List (Nat × String) :=
  [(200, "OK"),
   (201, "Created"),
   (202, "Accepted"),
   (204, "No Content"),
   (301, "Moved Permanently"),
   (302, "Moved Temporarily"),
   (304, "Not Modified"),
   (400, "Bad Request"),
   (401, "Unauthorized"),
   (403, "Forbidden"),
   (404, "Not Found"),
   (500, "Internal Server Error"),
   (501, "Not Implemented"),
   (502, "Bad Gateway"),
   (503, "Service Unavailable")]

/-- `getStatusMessage`: linear scan of the table for the first entry with the
given code, or the fallback message. -/
def getStatusMessage (statusCode : Nat) : String :=
  match HttpStatusCodes.find? (fun p => p.1 == statusCode) with
  | some p => p.2
  | none => "Unknown Status Code"

/-- The bytes that `sendHttpStatus` hands to `transmit`: status line with the
fixed `HTTP/1.0` version literal, the header-terminating blank line, and an
HTML error body when the code is not 200. -/
def sendHttpStatusBytes (statusCode : Nat) : String :=
  let statusMessage := getStatusMessage statusCode
  let buffer := "HTTP/1.0 " ++ toString statusCode ++ " " ++ statusMessage
      ++ "\r\n" ++ "\r\n"
  if statusCode ≠ 200 then
    buffer ++ "<html><body>\n<h1>" ++ toString statusCode ++ " " ++ statusMessage
      ++ "</h1>\n</body></html>\n"
  else
    buffer

/-- The delimiter set `"\t \r\n"` passed to `strtok` in `main`. -/
def isDelimiter (c : Char) : Bool :=
  c = '\t' || c = ' ' || c = '\r' || c = '\n'

/-- Accumulator loop behind `tokenize`: mirrors repeated `strtok` calls, which
skip delimiter runs and cut maximal delimiter-free tokens. -/
def tokenizeGo : List Char → List Char → List String
  | acc, [] => if acc.isEmpty then [] else [String.mk acc.reverse]
  | acc, c :: rest =>
    if isDelimiter c then
      if acc.isEmpty then tokenizeGo [] rest
      else String.mk acc.reverse :: tokenizeGo [] rest
    else
      tokenizeGo (c :: acc) rest

/-- All tokens that successive `strtok(request, "\t \r\n")` calls produce. -/
def tokenize (s : String) : List String :=
  tokenizeGo [] s.data

/-- `strstr`-style substring test: does `needle` occur contiguously in the
second list? -/
def containsSeq (needle : List Char) : List Char → Bool
  | [] => needle.isPrefixOf []
  | c :: rest => needle.isPrefixOf (c :: rest) || containsSeq needle rest

/-- The directory-traversal check in `main`: under the `len >= 3` guard,
compare the last three characters with `/..` and search for `/../`. -/
def hasTraversal (uri : String) : Bool :=
  if 3 ≤ uri.data.length then
    (uri.data.drop (uri.data.length - 3) == ("/..").data)
      || containsSeq ("/../").data uri.data
  else
    false

/-- The header-skipping loop in `main`: returns `true` when a blank line
(`"\r\n"` or `"\n"`) is found, `false` when the stream ends first. -/
def skipHeaders : List String → Bool
  | [] => false
  | line :: rest =>
    if line = "\r\n" ∨ line = "\n" then true else skipHeaders rest

/-- Outcome of the request-parsing section of `main`: either a rejection with
the recorded status code and whether `sendHttpStatus` is called before
`goto loop_end`, or an accepted request URI. -/
inductive ParseOutcome where
  | reject (status : Nat) (send : Bool)
  | accept (uri : String)
  deriving Repr, DecidableEq

/-- The request-parsing section of `main`, line by line: no request line →
400 (no send); token count ≠ 3 → 501 (sent); method ≠ GET → 501 (sent);
version not HTTP/1.0 or HTTP/1.1 → 501 (sent); URI not starting with `/` →
400 (sent); traversal → 400 (sent); stream end while skipping headers →
400 (no send); otherwise accept. -/
def parseRequest : List String → ParseOutcome
  | [] => .reject 400 false
  | request :: rest =>
    match tokenize request with
    | [httpMethod, uri, version] =>
      if httpMethod ≠ "GET" then .reject 501 true
      else if version ≠ "HTTP/1.0" ∧ version ≠ "HTTP/1.1" then .reject 501 true
      else if uri.data.head? ≠ some '/' then .reject 400 true
      else if hasTraversal uri then .reject 400 true
      else if skipHeaders rest then .accept uri
      else .reject 400 false
    | _ => .reject 501 true

/-- What `stat`/`fopen` can find at a path: a directory, or a regular file
with the given byte contents. -/
inductive FsEntry where
  | dir
  | file (contents : List Nat)
  deriving Repr, DecidableEq

/-- Path construction in `processFileRequest`: `webRoot ++ requestURI`, with
`index.html` appended when the built path ends in `/`. -/
def filePathOf (webRoot requestURI : String) : String :=
  let filePath := webRoot ++ requestURI
  if filePath.data.getLast? = some '/' then filePath ++ "index.html"
  else filePath

/-- The `fread`/`send` loop of `processFileRequest`: at most `BUFFER_SIZE`
bytes per chunk; a failed `send` breaks out of the loop. Returns the chunks
successfully sent. -/
def sendFileLoop (clientOk : Nat → Bool) (cIdx : Nat) (contents : List Nat) :
    List (List Nat) :=
  if h : contents = [] then []
  else if clientOk cIdx then
    contents.take BUFFER_SIZE ::
      sendFileLoop clientOk (cIdx + 1) (contents.drop BUFFER_SIZE)
  else []
  termination_by contents.length
  decreasing_by
    have hp : 0 < contents.length := List.length_pos.mpr h
    simp only [List.length_drop, BUFFER_SIZE]
    omega

/-- Result of `processFileRequest`: the path handed to `stat`/`fopen`, the
text chunks transmitted (status line and error body), the file-content chunks
sent, and the returned status code. -/
structure FileResult where
  path : String
  chunks : List String
  body : List (List Nat)
  status : Nat
  deriving Repr, DecidableEq

/-- `processFileRequest`: build the path; a directory answers 403, an
unopenable path answers 404, otherwise 200 followed by the chunked file
contents. The status write index is 0, the body chunks start at index 1. -/
def processFileRequest (fs : String → Option FsEntry)
    (webRoot requestURI : String) (clientOk : Nat → Bool) : FileResult :=
  let filePath := filePathOf webRoot requestURI
  match fs filePath with
  | some .dir =>
    { path := filePath,
      chunks := if clientOk 0 then [sendHttpStatusBytes 403] else [],
      body := [], status := 403 }
  | none =>
    { path := filePath,
      chunks := if clientOk 0 then [sendHttpStatusBytes 404] else [],
      body := [], status := 404 }
  | some (.file contents) =>
    { path := filePath,
      chunks := if clientOk 0 then [sendHttpStatusBytes 200] else [],
      body := sendFileLoop clientOk 1 contents, status := 200 }

/-- The `keyURI` literal of `processMdbRequest`. -/
def keyURI : String := "/mdb-lookup?key="

/-- The fixed HTML search form transmitted by `processMdbRequest`. -/
def mdbForm : String :=
  "<html><body>\n<h1>mdb-lookup</h1>\n<p>\n<form method=GET action=/mdb-lookup>\nlookup: <input type=text name=key>\n<input type=submit>\n</form>\n<p>\n"

/-- The table-row markup chosen in the loop body of `processMdbRequest` for
the current `rowIndex` (odd index: plain cell; even index: shaded cell). -/
def tableRowOf (rowIndex : Nat) : String :=
  if rowIndex % 2 ≠ 0 then "\n<tr><td>" else "\n<tr><td bgcolor=yellow>"

/-- The result-reading loop of `processMdbRequest`: read backend lines until
a bare `"\n"`; each earlier line costs two client transmits (row markup, then
the line). Returns the chunks sent, the next client transmit index, and
whether the blank-line sentinel was reached (`false` models the
`goto cleanup` exits: stream end or transmit failure). -/
def mdbReadLoop (clientOk : Nat → Bool) (cIdx rowIndex : Nat) :
    List String → List String × Nat × Bool
  | [] => ([], cIdx, false)
  | line :: rest =>
    if line = "\n" then ([], cIdx, true)
    else
      let tableRow := tableRowOf rowIndex
      if clientOk cIdx then
        if clientOk (cIdx + 1) then
          let t := mdbReadLoop clientOk (cIdx + 2) (rowIndex + 1) rest
          (tableRow :: line :: t.1, t.2.1, t.2.2)
        else ([tableRow], cIdx + 2, false)
      else ([], cIdx + 1, false)

/-- Result of `processMdbRequest`: chunks transmitted to the client, chunks
written to the backend connection, and the returned status code. -/
structure MdbResult where
  client : List String
  backend : List String
  status : Nat
  deriving Repr, DecidableEq

/-- `processMdbRequest`: send the 200 status (client transmit 0, result
ignored), the form (transmit 1, failure exits), then — only when the URI
starts with `keyURI` — write the verbatim key and a newline to the backend,
send the table opening (transmit 2), run the result loop from transmit 3,
and close the table and page. `statusCode` is set to 200 at the start and
never reassigned; every `goto cleanup` path returns it unchanged. -/
def processMdbRequest (requestURI : String) (mdbLines : List String)
    (clientOk backendOk : Nat → Bool) : MdbResult :=
  let statusCode := 200
  let statusChunk : List String :=
    if clientOk 0 then [sendHttpStatusBytes statusCode] else []
  if ¬ clientOk 1 then
    { client := statusChunk, backend := [], status := statusCode }
  else
    let sent := statusChunk ++ [mdbForm]
    if keyURI.data.isPrefixOf requestURI.data then
      let key := String.mk (requestURI.data.drop keyURI.length)
      if ¬ backendOk 0 then
        { client := sent, backend := [], status := statusCode }
      else if ¬ backendOk 1 then
        { client := sent, backend := [key], status := statusCode }
      else if ¬ clientOk 2 then
        { client := sent, backend := [key, "\n"], status := statusCode }
      else
        let sent := sent ++ ["<p><table border>"]
        let t := mdbReadLoop clientOk 3 1 mdbLines
        let sent := sent ++ t.1
        if ¬ t.2.2 then
          { client := sent, backend := [key, "\n"], status := statusCode }
        else if ¬ clientOk t.2.1 then
          { client := sent, backend := [key, "\n"], status := statusCode }
        else
          let sent := sent ++ ["\n</table>\n"]
          if ¬ clientOk (t.2.1 + 1) then
            { client := sent, backend := [key, "\n"], status := statusCode }
          else
            { client := sent ++ ["</body></html>\n"],
              backend := [key, "\n"], status := statusCode }
    else
      if ¬ clientOk 2 then
        { client := sent, backend := [], status := statusCode }
      else
        { client := sent ++ ["</body></html>\n"], backend := [],
          status := statusCode }

/-- The `mdbRequestURI` routing literal in `main`. -/
def mdbRequestURI : String := "/mdb-lookup"

/-- Everything one connection produces: chunks transmitted to the client,
file-content chunks sent, chunks written to the backend, paths handed to the
file system, and the final `statusCode` of the loop body. -/
structure ConnResult where
  client : List String
  body : List (List Nat)
  backend : List String
  fsReads : List String
  status : Nat
  deriving Repr, DecidableEq

/-- The per-connection body of `main`'s accept loop: parse, then either send
the rejection status (when the C code does), or route by URI prefix to
`processMdbRequest` or `processFileRequest`. -/
def handleConnection (fs : String → Option FsEntry) (webRoot : String)
    (mdbLines : List String) (clientOk backendOk : Nat → Bool)
    (clientLines : List String) : ConnResult :=
  match parseRequest clientLines with
  | .reject s true =>
    { client := if clientOk 0 then [sendHttpStatusBytes s] else [],
      body := [], backend := [], fsReads := [], status := s }
  | .reject s false =>
    { client := [], body := [], backend := [], fsReads := [], status := s }
  | .accept uri =>
    if mdbRequestURI.data.isPrefixOf uri.data then
      let r := processMdbRequest uri mdbLines clientOk backendOk
      { client := r.client, body := [], backend := r.backend,
        fsReads := [], status := r.status }
    else
      let r := processFileRequest fs webRoot uri clientOk
      { client := r.chunks, body := r.body, backend := [],
        fsReads := [r.path], status := r.status }

/-- Modelled from the claim's rendering rule (C9): markup for the row at the
given 1-indexed position — odd positions one style, even positions the
other. -/
def rowStyle (pos : Nat) : String :=
  if pos % 2 = 1 then "\n<tr><td>" else "\n<tr><td bgcolor=yellow>"

/-- Modelled from the claim's rendering rule (C9): the chunk sequence that
renders the given result lines as table rows, in order, starting at the
given 1-indexed position. -/
def renderRowsFrom : Nat → List String → List String
  | _, [] => []
  | pos, line :: rest => rowStyle pos :: line :: renderRowsFrom (pos + 1) rest

/-! ## Helper lemmas -/

/-- A `strstr` hit means the needle is no longer than the haystack. -/
theorem containsSeq_length_le (needle : List Char) :
    ∀ hay : List Char, containsSeq needle hay = true →
      needle.length ≤ hay.length := by
  intro hay
  induction hay with
  | nil =>
    intro h
    cases needle with
    | nil => simp
    | cons a as => simp [containsSeq] at h
  | cons c rest ih =>
    intro h
    rw [containsSeq, Bool.or_eq_true] at h
    rcases h with h | h
    · exact (List.isPrefixOf_iff_prefix.mp h).length_le
    · exact Nat.le_trans (ih h) (by simp)

/-- The claim-level traversal condition (contains `/../` or ends in `/..`)
implies the C check fires. -/
theorem hasTraversal_of_claim (uri : String)
    (h : containsSeq ("/../").data uri.data = true
       ∨ ("/..").data.isSuffixOf uri.data = true) :
    hasTraversal uri = true := by
  unfold hasTraversal
  rcases h with h | h
  · have hlen : 4 ≤ uri.data.length := by
      have hle := containsSeq_length_le ("/../").data uri.data h
      simpa using hle
    rw [if_pos (by omega)]
    simp [h]
  · have hsuf := List.isSuffixOf_iff_suffix.mp h
    have hlen : 3 ≤ uri.data.length := by simpa using hsuf.length_le
    rw [if_pos hlen]
    have hdrop := List.suffix_iff_eq_drop.mp hsuf
    have h3 : (("/..").data).length = 3 := rfl
    rw [h3] at hdrop
    rw [Bool.or_eq_true]
    left
    rw [beq_iff_eq]
    exact hdrop.symm

/-- The loop's row markup agrees with the claim-level style function. -/
theorem tableRowOf_eq_rowStyle (n : Nat) : tableRowOf n = rowStyle n := by
  unfold tableRowOf rowStyle
  rcases Nat.mod_two_eq_zero_or_one n with h | h <;> simp [h]

/-- On a healthy client connection, the result loop reads exactly up to the
first blank line and renders the earlier lines in order. -/
theorem mdbReadLoop_renders :
    ∀ (lines : List String), ("\n") ∉ lines →
      ∀ (rest : List String) (cIdx pos : Nat),
        mdbReadLoop allT cIdx pos (lines ++ "\n" :: rest) =
          (renderRowsFrom pos lines, cIdx + 2 * lines.length, true) := by
  intro lines
  induction lines with
  | nil =>
    intro _ rest cIdx pos
    simp [mdbReadLoop, renderRowsFrom]
  | cons l ls ih =>
    intro hnb rest cIdx pos
    have hl : ¬(l = "\n") := by
      intro he
      exact hnb (by simp [he])
    have hls : ("\n") ∉ ls := by
      intro he
      exact hnb (by simp [he])
    rw [List.cons_append, mdbReadLoop]
    rw [if_neg hl]
    simp only [allT, if_true]
    rw [ih hls rest (cIdx + 2) (pos + 1)]
    simp [renderRowsFrom, tableRowOf_eq_rowStyle, Prod.mk.injEq]
    omega

/-- Fuel-indexed version: the chunked file-transfer loop transmits the file
byte for byte when every `send` succeeds. -/
theorem sendFileLoop_flatten_fuel :
    ∀ (fuel : Nat) (contents : List Nat), contents.length ≤ fuel →
      ∀ cIdx, (sendFileLoop allT cIdx contents).flatten = contents := by
  intro fuel
  induction fuel with
  | zero =>
    intro contents hle cIdx
    have hc : contents = [] := by
      cases contents with
      | nil => rfl
      | cons a as => simp at hle
    subst hc
    rw [sendFileLoop]
    simp
  | succ n ih =>
    intro contents hle cIdx
    rw [sendFileLoop]
    by_cases hc : contents = []
    · simp [hc]
    · rw [dif_neg hc]
      simp only [allT, if_true, List.flatten_cons]
      rw [ih (contents.drop BUFFER_SIZE) ?_ (cIdx + 1)]
      · exact List.take_append_drop _ _
      · have hp : 0 < contents.length := List.length_pos.mpr hc
        simp only [List.length_drop, BUFFER_SIZE]
        omega

/-- The chunked file-transfer loop transmits the file byte for byte when
every `send` succeeds. -/
theorem sendFileLoop_flatten (contents : List Nat) (cIdx : Nat) :
    (sendFileLoop allT cIdx contents).flatten = contents :=
  sendFileLoop_flatten_fuel contents.length contents (Nat.le_refl _) cIdx

/-- A rejection that the C code answers with `sendHttpStatus` produces
exactly that status response and touches nothing else. -/
theorem handleConnection_of_reject_send (fs : String → Option FsEntry)
    (webRoot : String) (mdbLines : List String)
    (clientOk backendOk : Nat → Bool) (clientLines : List String) (s : Nat)
    (h : parseRequest clientLines = .reject s true) :
    handleConnection fs webRoot mdbLines clientOk backendOk clientLines =
      { client := if clientOk 0 then [sendHttpStatusBytes s] else [],
        body := [], backend := [], fsReads := [], status := s } := by
  unfold handleConnection
  rw [h]

/-- Any request line that fails the token-count, method or version check is
rejected as 501 with the response sent. -/
theorem parseRequest_not_impl (request : String) (rest : List String)
    (h : (tokenize request).length ≠ 3
       ∨ (tokenize request)[0]? ≠ some ("GET")
       ∨ ((tokenize request)[2]? ≠ some ("HTTP/1.0")
          ∧ (tokenize request)[2]? ≠ some ("HTTP/1.1"))) :
    parseRequest (request :: rest) = .reject 501 true := by
  rcases htk : tokenize request with _ | ⟨a, _ | ⟨b, _ | ⟨c, _ | ⟨d, tl⟩⟩⟩⟩
  · simp [parseRequest, htk]
  · simp [parseRequest, htk]
  · simp [parseRequest, htk]
  · simp only [htk] at h
    by_cases ha : a = "GET"
    · rcases h with h | h | ⟨h1, h2⟩
      · simp at h
      · simp [ha] at h
      · simp only [List.getElem?_cons_succ, List.getElem?_cons_zero] at h1 h2
        have h1' : ¬(c = "HTTP/1.0") := by simpa using h1
        have h2' : ¬(c = "HTTP/1.1") := by simpa using h2
        simp [parseRequest, htk, ha, h1', h2']
    · simp [parseRequest, htk, ha]
  · simp [parseRequest, htk]

/-- A well-formed `GET` request line whose URI matches the claim-level
traversal condition is rejected as 400 with the response sent. -/
theorem parseRequest_traversal (request : String) (rest : List String)
    (uri version : String)
    (htok : tokenize request = ["GET", uri, version])
    (hv : version = "HTTP/1.0" ∨ version = "HTTP/1.1")
    (htrav : containsSeq ("/../").data uri.data = true
           ∨ ("/..").data.isSuffixOf uri.data = true) :
    parseRequest (request :: rest) = .reject 400 true := by
  have hvn : ¬(version ≠ "HTTP/1.0" ∧ version ≠ "HTTP/1.1") := by
    rcases hv with h | h <;> simp [h]
  have htr := hasTraversal_of_claim uri htrav
  by_cases hhead : uri.data.head? = some '/'
  · simp [parseRequest, htok, hvn, hhead, htr]
  · simp [parseRequest, htok, hvn, hhead]

/-- The only silent rejections are the two stream-end cases, and both record
status 400. -/
theorem parseRequest_silent (clientLines : List String) (s : Nat)
    (h : parseRequest clientLines = .reject s false) :
    s = 400 ∧ (clientLines = []
      ∨ ∃ request rest, clientLines = request :: rest
          ∧ skipHeaders rest = false) := by
  cases clientLines with
  | nil =>
    simp only [parseRequest, ParseOutcome.reject.injEq] at h
    exact ⟨h.1.symm, Or.inl rfl⟩
  | cons request rest =>
    have hmain : s = 400 ∧ skipHeaders rest = false := by
      rcases htk : tokenize request with _ | ⟨a, _ | ⟨b, _ | ⟨c, _ | ⟨d, tl⟩⟩⟩⟩ <;>
        simp only [parseRequest, htk] at h
      · simp at h
      · simp at h
      · simp at h
      · split_ifs at h <;> simp_all
      · simp at h
    exact ⟨hmain.1, Or.inr ⟨request, rest, rfl, hmain.2⟩⟩

/-- Any string is a byte prefix of itself followed by more text. -/
theorem isPrefixOf_data_append (s t : String) :
    s.data.isPrefixOf (s ++ t).data = true := by
  simp [List.isPrefixOf_iff_prefix, List.prefix_append]

/-! ## Claim theorems -/

/-- C4: for every status code, the response writer emits exactly the status
line `HTTP/1.0 <code> <reason-phrase>` + CRLF, a blank CRLF line, and an HTML
body containing the code and reason phrase exactly when the code is not 200;
the version literal is always `HTTP/1.0` (the writer does not even receive
the request's version). -/
theorem sendHttpStatus_exact_bytes (statusCode : Nat) :
    (sendHttpStatusBytes statusCode =
      if statusCode = 200 then
        "HTTP/1.0 " ++ toString statusCode ++ " " ++ getStatusMessage statusCode
          ++ "\r\n" ++ "\r\n"
      else
        "HTTP/1.0 " ++ toString statusCode ++ " " ++ getStatusMessage statusCode
          ++ "\r\n" ++ "\r\n"
          ++ "<html><body>\n<h1>" ++ toString statusCode ++ " "
          ++ getStatusMessage statusCode ++ "</h1>\n</body></html>\n")
    ∧ ("HTTP/1.0 ").data.isPrefixOf (sendHttpStatusBytes statusCode).data
        = true := by
  have heq : sendHttpStatusBytes statusCode =
      if statusCode = 200 then
        "HTTP/1.0 " ++ toString statusCode ++ " " ++ getStatusMessage statusCode
          ++ "\r\n" ++ "\r\n"
      else
        "HTTP/1.0 " ++ toString statusCode ++ " " ++ getStatusMessage statusCode
          ++ "\r\n" ++ "\r\n"
          ++ "<html><body>\n<h1>" ++ toString statusCode ++ " "
          ++ getStatusMessage statusCode ++ "</h1>\n</body></html>\n" := by
    unfold sendHttpStatusBytes
    by_cases h : statusCode = 200
    · simp [h]
    · simp [h]
  refine ⟨heq, ?_⟩
  rw [heq]
  split
  · simp [List.isPrefixOf_iff_prefix, List.append_assoc, List.prefix_append]
  · simp [List.isPrefixOf_iff_prefix, List.append_assoc, List.prefix_append]

set_option maxHeartbeats 1000000 in
/-- C10: the backend proxy handler returns status 200 on every execution
path, for every URI, backend reply stream, and pattern of client-write and
backend-write failures. -/
theorem processMdbRequest_always_200 (requestURI : String)
    (mdbLines : List String) (clientOk backendOk : Nat → Bool) :
    (processMdbRequest requestURI mdbLines clientOk backendOk).status
      = 200 := by
  simp only [processMdbRequest]
  repeat' split
  all_goals rfl

/-- C8: for every URI beginning with `/mdb-lookup?key=`, the bytes written to
the backend connection are exactly the verbatim URI suffix after that prefix
(no decoding of any kind) followed by a single newline, and nothing else —
for every backend reply stream. -/
theorem processMdbRequest_backend_bytes (requestURI : String)
    (mdbLines : List String)
    (hkey : keyURI.data.isPrefixOf requestURI.data = true) :
    (processMdbRequest requestURI mdbLines allT allT).backend =
      [String.mk (requestURI.data.drop keyURI.length), "\n"] := by
  simp [processMdbRequest, allT, hkey]
  split <;> simp

/-- C7: every URI routed to the proxy handler first gets the 200 status
response and then the fixed HTML form; when the URI does not begin with
`/mdb-lookup?key=`, no table is emitted (only the form and the closing tag),
nothing is written to the backend, and the handler returns 200. -/
theorem processMdbRequest_form_page (requestURI : String)
    (mdbLines : List String)
    (_hroute : mdbRequestURI.data.isPrefixOf requestURI.data = true) :
    (∃ later, (processMdbRequest requestURI mdbLines allT allT).client =
        sendHttpStatusBytes 200 :: mdbForm :: later)
    ∧ (keyURI.data.isPrefixOf requestURI.data = false →
        (processMdbRequest requestURI mdbLines allT allT).client =
            [sendHttpStatusBytes 200, mdbForm, "</body></html>\n"]
        ∧ (processMdbRequest requestURI mdbLines allT allT).backend = []
        ∧ (processMdbRequest requestURI mdbLines allT allT).status = 200) := by
  constructor
  · by_cases hk : keyURI.data.isPrefixOf requestURI.data = true
    · by_cases hd : (mdbReadLoop allT 3 1 mdbLines).2.2 = true
      · exact ⟨"<p><table border>" :: ((mdbReadLoop allT 3 1 mdbLines).1
            ++ ["\n</table>\n", "</body></html>\n"]),
          by simp [processMdbRequest, allT, hk, hd]⟩
      · exact ⟨"<p><table border>" :: (mdbReadLoop allT 3 1 mdbLines).1,
          by simp [processMdbRequest, allT, hk, hd]⟩
    · exact ⟨["</body></html>\n"],
        by simp [processMdbRequest, allT, hk]⟩
  · intro hnk
    simp [processMdbRequest, allT, hnk]

/-- C9: for every backend reply consisting of result lines followed by a
blank-line sentinel, the proxy renders exactly the lines before the sentinel
as table rows, in order, with the row markup alternating by 1-indexed
position (odd rows one style, even rows the other, per `rowStyle`). -/
theorem processMdbRequest_table_rows (requestURI : String)
    (lines rest : List String)
    (hkey : keyURI.data.isPrefixOf requestURI.data = true)
    (hnb : ("\n") ∉ lines) :
    (processMdbRequest requestURI (lines ++ "\n" :: rest) allT allT).client =
      [sendHttpStatusBytes 200, mdbForm, "<p><table border>"]
        ++ renderRowsFrom 1 lines ++ ["\n</table>\n", "</body></html>\n"] := by
  have hloop := mdbReadLoop_renders lines hnb rest 3 1
  simp [processMdbRequest, allT, hkey, hloop]

/-- A file system with no entries, used by concrete instantiations. -/
def noFs : String → Option FsEntry := fun _ => none

/-- C2: every request line that does not tokenize into exactly three
whitespace-separated tokens, or whose first token is not `GET`, or whose
third token is neither `HTTP/1.0` nor `HTTP/1.1`, is answered with exactly
the 501 status response, with no file-system access and no backend write. -/
theorem handleConnection_not_implemented (fs : String → Option FsEntry)
    (webRoot : String) (mdbLines : List String)
    (request : String) (rest : List String)
    (h : (tokenize request).length ≠ 3
       ∨ (tokenize request)[0]? ≠ some ("GET")
       ∨ ((tokenize request)[2]? ≠ some ("HTTP/1.0")
          ∧ (tokenize request)[2]? ≠ some ("HTTP/1.1"))) :
    handleConnection fs webRoot mdbLines allT allT (request :: rest) =
      { client := [sendHttpStatusBytes 501], body := [], backend := [],
        fsReads := [], status := 501 } := by
  rw [handleConnection_of_reject_send fs webRoot mdbLines allT allT _ 501
    (parseRequest_not_impl request rest h)]
  simp [allT]

/-- C3: every `GET` request with a supported version whose URI contains
`/../` or ends in `/..` is answered with exactly the 400 status response,
with no file-system access and no backend write (this holds whether or not
the URI starts with `/`, since that check also answers 400). -/
theorem handleConnection_traversal (fs : String → Option FsEntry)
    (webRoot : String) (mdbLines : List String)
    (request : String) (rest : List String) (uri version : String)
    (htok : tokenize request = ["GET", uri, version])
    (hv : version = "HTTP/1.0" ∨ version = "HTTP/1.1")
    (htrav : containsSeq ("/../").data uri.data = true
           ∨ ("/..").data.isSuffixOf uri.data = true) :
    handleConnection fs webRoot mdbLines allT allT (request :: rest) =
      { client := [sendHttpStatusBytes 400], body := [], backend := [],
        fsReads := [], status := 400 } := by
  rw [handleConnection_of_reject_send fs webRoot mdbLines allT allT _ 400
    (parseRequest_traversal request rest uri version htok hv htrav)]
  simp [allT]

/-- C1 (amended): on every parser rejection the recorded status is 400 or
501 and neither the file system nor the backend is touched; the
corresponding status response is transmitted exactly when the rejection is
detected on a readable request line (`send = true`), while the two
stream-end rejections — no request line at all, or stream end before the
blank header line — record 400 silently, transmitting nothing. -/
theorem handleConnection_reject_behavior (fs : String → Option FsEntry)
    (webRoot : String) (mdbLines : List String) (clientLines : List String)
    (s : Nat) (send : Bool)
    (h : parseRequest clientLines = .reject s send) :
    (handleConnection fs webRoot mdbLines allT allT clientLines).status = s
    ∧ (handleConnection fs webRoot mdbLines allT allT clientLines).fsReads = []
    ∧ (handleConnection fs webRoot mdbLines allT allT clientLines).backend = []
    ∧ (handleConnection fs webRoot mdbLines allT allT clientLines).client
        = (if send then [sendHttpStatusBytes s] else [])
    ∧ (send = false → s = 400
        ∧ (clientLines = [] ∨ ∃ request rest,
            clientLines = request :: rest ∧ skipHeaders rest = false)) := by
  cases send with
  | false =>
    have hs := parseRequest_silent clientLines s h
    unfold handleConnection
    rw [h]
    simp
    exact hs
  | true =>
    unfold handleConnection
    rw [h]
    simp [allT]

/-- C1 counterexample: on the empty client stream (no request line readable)
the parser rejects with status 400, yet nothing at all — in particular not
the 400 status response — is transmitted to the client before the
connection is closed. -/
theorem handleConnection_silent_400_cex :
    (handleConnection noFs ("") [] allT allT []).status = 400
    ∧ (handleConnection noFs ("") [] allT allT []).client = []
    ∧ sendHttpStatusBytes 400 ∉
        (handleConnection noFs ("") [] allT allT []).client := by
  decide

/-- C5: whenever the file handler finds a regular file at the resolved path,
it returns 200 and the transmitted body chunks flatten to exactly the file's
contents, for every byte count (0, 1 and chunk-boundary sizes included). -/
theorem processFileRequest_roundtrip (fs : String → Option FsEntry)
    (webRoot requestURI : String) (contents : List Nat)
    (h : fs (filePathOf webRoot requestURI) = some (.file contents)) :
    (processFileRequest fs webRoot requestURI allT).status = 200
    ∧ ((processFileRequest fs webRoot requestURI allT).body).flatten
        = contents := by
  simp [processFileRequest, h, allT, sendFileLoop_flatten]

/-- C6: for every web root and nonempty URI, the resolved path is the
concatenation of root and URI with `index.html` appended exactly when the
URI ends in `/`; a directory is answered 403, an absent entry 404, a file
200, and in each case the status returned to the caller equals the one in
the transmitted status response. -/
theorem processFileRequest_dispatch (fs : String → Option FsEntry)
    (webRoot requestURI : String) (hne : requestURI ≠ ("")) :
    (filePathOf webRoot requestURI =
      if requestURI.data.getLast? = some '/'
      then webRoot ++ requestURI ++ "index.html"
      else webRoot ++ requestURI)
    ∧ (processFileRequest fs webRoot requestURI allT).path
        = filePathOf webRoot requestURI
    ∧ (processFileRequest fs webRoot requestURI allT).chunks
        = [sendHttpStatusBytes
            (processFileRequest fs webRoot requestURI allT).status]
    ∧ (fs (filePathOf webRoot requestURI) = some .dir →
        (processFileRequest fs webRoot requestURI allT).status = 403)
    ∧ (fs (filePathOf webRoot requestURI) = none →
        (processFileRequest fs webRoot requestURI allT).status = 404)
    ∧ (∀ c, fs (filePathOf webRoot requestURI) = some (.file c) →
        (processFileRequest fs webRoot requestURI allT).status = 200) := by
  have hdata : requestURI.data ≠ [] := by
    intro he
    exact hne (by cases requestURI with | mk d => simp_all)
  have hlast : (webRoot ++ requestURI).data.getLast?
      = requestURI.data.getLast? := by
    rw [String.data_append, List.getLast?_append]
    rcases hx : requestURI.data.getLast? with _ | x
    · exact absurd (by simpa using hx) hdata
    · rfl
  refine ⟨?_, ?_, ?_, ?_, ?_, ?_⟩
  · simp only [filePathOf]
    rw [hlast]
  · rcases hfs : fs (filePathOf webRoot requestURI) with _ | e
    · simp [processFileRequest, hfs]
    · cases e <;> simp [processFileRequest, hfs]
  · rcases hfs : fs (filePathOf webRoot requestURI) with _ | e
    · simp [processFileRequest, hfs, allT]
    · cases e <;> simp [processFileRequest, hfs, allT]
  · intro hfs
    simp [processFileRequest, hfs]
  · intro hfs
    simp [processFileRequest, hfs]
  · intro c hfs
    simp [processFileRequest, hfs]

/-! ## Concrete witnesses -/

/-- File system holding one 4097-byte file (one transfer chunk plus one). -/
def bigFs : String → Option FsEntry :=
  fun p => if p = ("w/file") then some (.file (List.replicate 4097 7)) else none

/-- File system holding one directory entry. -/
def dirFs : String → Option FsEntry :=
  fun p => if p = ("w/d") then some .dir else none

/-- C2 witness: a `POST` request line is answered with exactly the 501
response and touches nothing. -/
theorem handleConnection_not_implemented_witness :
    ((tokenize ("POST / HTTP/1.0\r\n")).length ≠ 3
       ∨ (tokenize ("POST / HTTP/1.0\r\n"))[0]? ≠ some ("GET")
       ∨ ((tokenize ("POST / HTTP/1.0\r\n"))[2]? ≠ some ("HTTP/1.0")
          ∧ (tokenize ("POST / HTTP/1.0\r\n"))[2]? ≠ some ("HTTP/1.1")))
    ∧ handleConnection noFs ("") [] allT allT
        (("POST / HTTP/1.0\r\n") :: [("\r\n")]) =
      { client := [sendHttpStatusBytes 501], body := [], backend := [],
        fsReads := [], status := 501 } :=
  ⟨Or.inr (Or.inl (by decide)),
   handleConnection_not_implemented noFs ("") [] ("POST / HTTP/1.0\r\n")
     [("\r\n")] (Or.inr (Or.inl (by decide)))⟩

/-- C3 witness: `GET /a/../b HTTP/1.0` is answered with exactly the 400
response and touches nothing. -/
theorem handleConnection_traversal_witness :
    tokenize ("GET /a/../b HTTP/1.0\r\n") = ["GET", "/a/../b", "HTTP/1.0"]
    ∧ (containsSeq ("/../").data ("/a/../b").data = true
       ∨ ("/..").data.isSuffixOf ("/a/../b").data = true)
    ∧ handleConnection noFs ("") [] allT allT
        (("GET /a/../b HTTP/1.0\r\n") :: [("\r\n")]) =
      { client := [sendHttpStatusBytes 400], body := [], backend := [],
        fsReads := [], status := 400 } :=
  ⟨by decide, Or.inl (by decide),
   handleConnection_traversal noFs ("") [] ("GET /a/../b HTTP/1.0\r\n")
     [("\r\n")] ("/a/../b") ("HTTP/1.0") (by decide) (Or.inl rfl)
     (Or.inl (by decide))⟩

/-- C1 witness: a request whose header section ends prematurely is rejected
with status 400 recorded and nothing transmitted. -/
theorem handleConnection_reject_behavior_witness :
    parseRequest [("GET / HTTP/1.0\r\n")] = .reject 400 false
    ∧ ((handleConnection noFs ("") [] allT allT
          [("GET / HTTP/1.0\r\n")]).status = 400
       ∧ (handleConnection noFs ("") [] allT allT
            [("GET / HTTP/1.0\r\n")]).fsReads = []
       ∧ (handleConnection noFs ("") [] allT allT
            [("GET / HTTP/1.0\r\n")]).backend = []
       ∧ (handleConnection noFs ("") [] allT allT
            [("GET / HTTP/1.0\r\n")]).client
           = (if false then [sendHttpStatusBytes 400] else [])
       ∧ (false = false → (400 : Nat) = 400
           ∧ ([("GET / HTTP/1.0\r\n")] = ([] : List String)
              ∨ ∃ request rest, [("GET / HTTP/1.0\r\n")] = request :: rest
                  ∧ skipHeaders rest = false))) :=
  ⟨by decide,
   handleConnection_reject_behavior noFs ("") [] [("GET / HTTP/1.0\r\n")]
     400 false (by decide)⟩

/-- C5 witness: a 4097-byte file (one chunk plus one byte) is served 200
with a body flattening to exactly its contents. -/
theorem processFileRequest_roundtrip_witness :
    bigFs (filePathOf ("w") ("/file"))
      = some (.file (List.replicate 4097 7))
    ∧ ((processFileRequest bigFs ("w") ("/file") allT).status = 200
       ∧ ((processFileRequest bigFs ("w") ("/file") allT).body).flatten
           = List.replicate 4097 7) :=
  ⟨by rfl,
   processFileRequest_roundtrip bigFs ("w") ("/file")
     (List.replicate 4097 7) (by rfl)⟩

/-- C6 witness: a URI resolving to a directory yields a 403 that is both
sent and returned. -/
theorem processFileRequest_dispatch_witness :
    (("/d" : String) ≠ (""))
    ∧ ((filePathOf ("w") ("/d") =
        if ("/d").data.getLast? = some '/'
        then ("w" : String) ++ ("/d") ++ "index.html"
        else ("w" : String) ++ ("/d"))
      ∧ (processFileRequest dirFs ("w") ("/d") allT).path
          = filePathOf ("w") ("/d")
      ∧ (processFileRequest dirFs ("w") ("/d") allT).chunks
          = [sendHttpStatusBytes
              (processFileRequest dirFs ("w") ("/d") allT).status]
      ∧ (dirFs (filePathOf ("w") ("/d")) = some .dir →
          (processFileRequest dirFs ("w") ("/d") allT).status = 403)
      ∧ (dirFs (filePathOf ("w") ("/d")) = none →
          (processFileRequest dirFs ("w") ("/d") allT).status = 404)
      ∧ (∀ c, dirFs (filePathOf ("w") ("/d")) = some (.file c) →
          (processFileRequest dirFs ("w") ("/d") allT).status = 200)) :=
  ⟨by decide, processFileRequest_dispatch dirFs ("w") ("/d") (by decide)⟩

/-- C7 witness: the bare `/mdb-lookup` URI gets the status, the form and the
closing tag only, with no backend write and status 200. -/
theorem processMdbRequest_form_page_witness :
    mdbRequestURI.data.isPrefixOf ("/mdb-lookup").data = true
    ∧ ((∃ later, (processMdbRequest ("/mdb-lookup") [] allT allT).client =
          sendHttpStatusBytes 200 :: mdbForm :: later)
       ∧ (keyURI.data.isPrefixOf ("/mdb-lookup").data = false →
           (processMdbRequest ("/mdb-lookup") [] allT allT).client =
               [sendHttpStatusBytes 200, mdbForm, "</body></html>\n"]
           ∧ (processMdbRequest ("/mdb-lookup") [] allT allT).backend = []
           ∧ (processMdbRequest ("/mdb-lookup") [] allT allT).status
               = 200)) :=
  ⟨by decide, processMdbRequest_form_page ("/mdb-lookup") [] (by decide)⟩

/-- C8 witness: the key `alice` is written to the backend verbatim, followed
by one newline and nothing else. -/
theorem processMdbRequest_backend_bytes_witness :
    keyURI.data.isPrefixOf ("/mdb-lookup?key=alice").data = true
    ∧ (processMdbRequest ("/mdb-lookup?key=alice") [] allT allT).backend =
        [String.mk (("/mdb-lookup?key=alice").data.drop keyURI.length),
         "\n"] :=
  ⟨by decide,
   processMdbRequest_backend_bytes ("/mdb-lookup?key=alice") []
     (by decide)⟩

/-- C9 witness: a three-line backend reply renders rows 1 and 3 with one
style and row 2 with the other, in order. -/
theorem processMdbRequest_table_rows_witness :
    keyURI.data.isPrefixOf ("/mdb-lookup?key=a").data = true
    ∧ (("\n") ∉ [("a,1\n"), ("b,2\n"), ("c,3\n")])
    ∧ renderRowsFrom 1 [("a,1\n"), ("b,2\n"), ("c,3\n")] =
        ["\n<tr><td>", "a,1\n", "\n<tr><td bgcolor=yellow>", "b,2\n",
         "\n<tr><td>", "c,3\n"]
    ∧ (processMdbRequest ("/mdb-lookup?key=a")
          ([("a,1\n"), ("b,2\n"), ("c,3\n")] ++ ("\n") :: []) allT
          allT).client =
        [sendHttpStatusBytes 200, mdbForm, "<p><table border>"]
          ++ renderRowsFrom 1 [("a,1\n"), ("b,2\n"), ("c,3\n")]
          ++ ["\n</table>\n", "</body></html>\n"] :=
  ⟨by decide, by decide, by decide,
   processMdbRequest_table_rows ("/mdb-lookup?key=a")
     [("a,1\n"), ("b,2\n"), ("c,3\n")] [] (by decide) (by decide)⟩
